import Mathlib

/-!
Verification of the location-resolution and deduplication engine of the
JaveaRealEstate repository (scripts/process_and_upload.py and
scripts/new_scraper.py), via a shallow embedding of its Python functions.
-/

set_option maxRecDepth 4000

/- ## Python string primitives, modelled over lists of characters -/

/-- The default whitespace set stripped by Python `str.strip()`. -/
def isPySpace (c : Char) : Bool :=
  c = ' ' || c = '\t' || c = '\n' || c = '\r' || c = '\x0b' || c = '\x0c'

/-- Python `str.strip()`: drop leading and trailing whitespace. -/
def pyStrip (l : List Char) : List Char :=
  ((l.dropWhile isPySpace).reverse.dropWhile isPySpace).reverse

/-- Uppercase/lowercase letter pairs: the ASCII alphabet plus the accented
letters appearing in this repository's text and tables.  Models the part of
Python `str.lower` / `str.upper` relevant to this program. -/
def casePairs : List (Char × Char) :=
  [('A','a'),('B','b'),('C','c'),('D','d'),('E','e'),('F','f'),('G','g'),
   ('H','h'),('I','i'),('J','j'),('K','k'),('L','l'),('M','m'),('N','n'),
   ('O','o'),('P','p'),('Q','q'),('R','r'),('S','s'),('T','t'),('U','u'),
   ('V','v'),('W','w'),('X','x'),('Y','y'),('Z','z'),
   ('À','à'),('Á','á'),('È','è'),('É','é'),('Ì','ì'),('Í','í'),
   ('Ò','ò'),('Ó','ó'),('Ù','ù'),('Ú','ú'),('Ü','ü'),('Ñ','ñ'),('Ã','ã')]

/-- Python `str.lower` on one character. -/
def pyLowerChar (c : Char) : Char :=
  match casePairs.find? (fun p => p.1 == c) with
  | some p => p.2
  | none => c

/-- Python `str.upper` on one character. -/
def pyUpperChar (c : Char) : Char :=
  match casePairs.find? (fun p => p.2 == c) with
  | some p => p.1
  | none => c

def pyLower (l : List Char) : List Char := l.map pyLowerChar
def pyUpper (l : List Char) : List Char := l.map pyUpperChar

/-- Python substring test `k in l`. -/
def containsSub (k : List Char) : List Char → Bool
  | [] => k.isEmpty
  | c :: rest => k.isPrefixOf (c :: rest) || containsSub k rest

/-- One pass of Python `str.replace(k, v)`: scan left to right, replace each
non-overlapping occurrence of `k` by `v`, resuming the scan after the
occurrence (the inserted `v` is never rescanned).  The counter holds how many
characters of a just-replaced occurrence remain to be consumed silently. -/
def replaceGo (k v : List Char) : Nat → List Char → List Char
  | _, [] => []
  | n+1, _ :: rest => replaceGo k v n rest
  | 0, c :: rest =>
    if !k.isEmpty && k.isPrefixOf (c :: rest) then
      v ++ replaceGo k v (k.length - 1) rest
    else
      c :: replaceGo k v 0 rest

def replaceAll (k v l : List Char) : List Char := replaceGo k v 0 l

/- String-level wrappers -/

def pyStripS (s : String) : String := ⟨pyStrip s.data⟩
def pyLowerS (s : String) : String := ⟨pyLower s.data⟩
def pyUpperS (s : String) : String := ⟨pyUpper s.data⟩
def containsSubS (k s : String) : Bool := containsSub k.data s.data
def replaceAllS (k v s : String) : String := ⟨replaceAll k.data v.data s.data⟩

/-- Apply a table of substring replacements in table order
(Python: `for old, new in replacements.items(): s = s.replace(old, new)`). -/
def applyReps (tbl : List (String × String)) (s : String) : String :=
  tbl.foldl (fun t p => replaceAllS p.1 p.2 t) s

/- ## process_and_upload.py : normalize_location -/

/-- The `replacements` table of `normalize_location`, in declaration order. -/
def replacements : List (String × String) :=
  [("xàbia", "javea"),
   ("xabia", "javea"),
   ("jávea", "javea"),
   ("pueblo", "casco antiguo"),
   ("old town", "casco antiguo"),
   ("arenal beach", "arenal"),
   ("puerto", "port"),
   ("portichol", "portitxol")]

/-- `normalize_location` from process_and_upload.py: lower-case, strip, then
apply the replacement table in order. -/
def normalize_location (location : String) : String :=
  applyReps replacements (pyStripS (pyLowerS location))

/- ## process_and_upload.py : duplicate classifier -/

/-- A coordinate pair; the geodesic distance computation of geopy is kept
abstract as a parameter `dist` of the classifier. -/
abbrev Coord : Type := ℚ × ℚ

/-- The fields of a scraped property record that the deduplication logic
reads.  A missing `source_reference` is the empty string and a missing
`price` is 0, matching `prop.get(..., default)` in the code. -/
structure Property where
  title : String
  location : String
  price : Int
  type : String
  source_reference : String
  coordinates : Option Coord
deriving DecidableEq

/-- `are_properties_duplicate` from process_and_upload.py.
Tier 1: equal non-empty stripped source references.
Tier 2: both geocoded, distance below `max_distance_m`, exactly equal price,
exactly equal type, and strictly positive price.
No further tier exists: the code deliberately does not compare titles,
locations or price similarity. -/
def are_properties_duplicate (dist : Coord → Coord → ℚ)
    (prop1 prop2 : Property) (max_distance_m : ℚ) : Bool :=
  let ref1 := pyStripS prop1.source_reference
  let ref2 := pyStripS prop2.source_reference
  if ref1 != "" && ref2 != "" && ref1 == ref2 then
    true
  else
    match prop1.coordinates, prop2.coordinates with
    | some c1, some c2 =>
      if decide (dist c1 c2 < max_distance_m) then
        if prop1.price == prop2.price && prop1.type == prop2.type
            && decide (0 < prop1.price) then
          true
        else
          false
      else false
    | _, _ => false

/-- `deduplicate_properties` from process_and_upload.py: scan the batch in
order; compare each candidate against the accepted list in insertion order
stopping at the first match; append on no match, count a duplicate otherwise.
Returns the accepted list and the duplicate counter. -/
def deduplicate_properties (dist : Coord → Coord → ℚ)
    (properties : List Property) : List Property × Nat :=
  properties.foldl
    (fun acc prop =>
      match acc.1.find? (fun u => are_properties_duplicate dist prop u 5) with
      | some _ => (acc.1, acc.2 + 1)
      | none => (acc.1 ++ [prop], acc.2))
    ([], 0)

/- ## Spec-side restatements of the classifier tiers -/

/-- Tier 1 of the spec: both stripped references non-empty and equal. -/
def refMatches (prop1 prop2 : Property) : Bool :=
  pyStripS prop1.source_reference != "" &&
  pyStripS prop2.source_reference != "" &&
  pyStripS prop1.source_reference == pyStripS prop2.source_reference

/-- Tier 2 of the spec as the code implements it: both geocoded, closer than
`max_distance_m`, equal price, equal type, positive price. -/
def geoFires (dist : Coord → Coord → ℚ)
    (prop1 prop2 : Property) (max_distance_m : ℚ) : Bool :=
  match prop1.coordinates, prop2.coordinates with
  | some c1, some c2 =>
    decide (dist c1 c2 < max_distance_m) &&
    prop1.price == prop2.price && prop1.type == prop2.type &&
    decide (0 < prop1.price)
  | _, _ => false

/-- The classifier is exactly the union of the reference tier and the
geospatial tier: there is no further rule. -/
theorem dup_eq_tiers (dist : Coord → Coord → ℚ)
    (p1 p2 : Property) (m : ℚ) :
    are_properties_duplicate dist p1 p2 m = (refMatches p1 p2 || geoFires dist p1 p2 m) := by
  unfold are_properties_duplicate refMatches geoFires
  cases h1 : p1.coordinates <;> cases h2 : p2.coordinates <;>
    cases hr : (pyStripS p1.source_reference != "" && pyStripS p2.source_reference != "" &&
      pyStripS p1.source_reference == pyStripS p2.source_reference) <;>
    simp only [hr, if_true, if_false, Bool.true_or, Bool.false_or, cond_true, cond_false] <;>
    try rfl
  cases hd : decide (dist _ _ < m) <;>
    cases hp : (p1.price == p2.price && p1.type == p2.type && decide (0 < p1.price)) <;>
    simp_all [Bool.and_assoc] <;> omega

/-- C3: the spec posits a third, normalized-text/price tier.  The code has no
such tier: `are_properties_duplicate` is exactly the union of the reference
tier and the geospatial tier, so equal normalized locations, equal titles and
equal prices never by themselves produce a duplicate verdict (amended claim). -/
theorem C3_no_text_tier (dist : Coord → Coord → ℚ)
    (p1 p2 : Property) (m : ℚ) :
    are_properties_duplicate dist p1 p2 m = (refMatches p1 p2 || geoFires dist p1 p2 m) :=
  dup_eq_tiers dist p1 p2 m

/-- C3 counterexample: a pair with identical (hence identical-normalized)
locations, identical titles and identical prices, but no source references
and no coordinates, is classified as not a duplicate, contradicting the
claimed text/price tier. -/
theorem C3_counterexample :
    are_properties_duplicate (fun _ _ => 0)
      ⟨"Villa con piscina", "Javea, Arenal", 320000, "house", "", none⟩
      ⟨"Villa con piscina", "Javea, Arenal", 320000, "house", "", none⟩ 5 = false := by
  decide

/-- C1: two listings whose stripped source references are non-empty and equal
are always classified as duplicates, whatever every other field holds. -/
theorem C1_reference_match (dist : Coord → Coord → ℚ) (p1 p2 : Property) (m : ℚ)
    (h1 : pyStripS p1.source_reference ≠ "")
    (h2 : pyStripS p1.source_reference = pyStripS p2.source_reference) :
    are_properties_duplicate dist p1 p2 m = true := by
  unfold are_properties_duplicate
  have h2' : pyStripS p2.source_reference ≠ "" := h2 ▸ h1
  simp [h1, h2', h2]

theorem C1_reference_match_witness :
    are_properties_duplicate (fun _ _ => 0)
      ⟨"Villa A", "Javea", 100, "villa", " REF-1 ", none⟩
      ⟨"Apt B", "Denia", 200, "apartment", "REF-1", some (1, 2)⟩ 5 = true :=
  C1_reference_match _ _ _ _ (by decide) (by decide)

/-- C2 counterexample: a pair 3 m apart (the distance function is abstract;
here it is constantly 3) with equal prices (both 0, e.g. price missing) and
equal types is NOT classified as a duplicate, because the code additionally
requires a strictly positive price, which the claim omits. -/
theorem C2_counterexample :
    (3 : ℚ) < 5 ∧
    are_properties_duplicate (fun _ _ => 3)
      ⟨"Villa", "Javea, Arenal", 0, "house", "", some (1, 2)⟩
      ⟨"Villa", "Javea, Arenal", 0, "house", "", some (1, 2)⟩ 5 = false := by
  exact ⟨by decide, by decide⟩

/-- C2 amended: for listings without a reference match, when both are
geocoded, closer than 5 m, with exactly equal prices, exactly equal types AND
a strictly positive price, the classifier returns true; and whenever the
distance exceeds 5 m the geospatial tier never fires. -/
theorem C2_geospatial_tier (dist : Coord → Coord → ℚ) (p1 p2 : Property)
    (c1 c2 : Coord)
    (hc1 : p1.coordinates = some c1) (hc2 : p2.coordinates = some c2) :
    (dist c1 c2 < 5 → p1.price = p2.price → p1.type = p2.type → 0 < p1.price →
      are_properties_duplicate dist p1 p2 5 = true) ∧
    (5 < dist c1 c2 → geoFires dist p1 p2 5 = false) := by
  constructor
  · intro hd hp ht hpos
    rw [dup_eq_tiers]
    have hg : geoFires dist p1 p2 5 = true := by
      unfold geoFires
      rw [hc1, hc2]
      have hpos2 : 0 < p2.price := hp ▸ hpos
      simp [hd, hp, ht, hpos2]
    rw [hg, Bool.or_true]
  · intro hd
    unfold geoFires
    rw [hc1, hc2]
    have : ¬ dist c1 c2 < 5 := by linarith
    simp [this]

theorem C2_geospatial_tier_witness :
    are_properties_duplicate (fun _ _ => 3)
      ⟨"Villa", "Javea", 320000, "house", "", some (1, 2)⟩
      ⟨"Chalet", "Xàbia", 320000, "house", "", some (1, 2)⟩ 5 = true ∧
    geoFires (fun _ _ => 7)
      ⟨"Villa", "Javea", 320000, "house", "", some (1, 2)⟩
      ⟨"Chalet", "Xàbia", 320000, "house", "", some (1, 2)⟩ 5 = false :=
  ⟨(C2_geospatial_tier (fun _ _ => 3) _ _ (1, 2) (1, 2) rfl rfl).1
      (by decide) rfl rfl (by decide),
   (C2_geospatial_tier (fun _ _ => 7) _ _ (1, 2) (1, 2) rfl rfl).2 (by decide)⟩

/-- C10: the geospatial tier only fires for strictly positive prices: a pair
without a reference match, closer than 5 m with equal types but both prices 0
(e.g. missing price fields), is not a duplicate. -/
theorem C10_zero_price_not_duplicate (dist : Coord → Coord → ℚ)
    (p1 p2 : Property) (c1 c2 : Coord)
    (href : refMatches p1 p2 = false)
    (hc1 : p1.coordinates = some c1) (hc2 : p2.coordinates = some c2)
    (hd : dist c1 c2 < 5) (ht : p1.type = p2.type)
    (hp1 : p1.price = 0) (hp2 : p2.price = 0) :
    are_properties_duplicate dist p1 p2 5 = false := by
  rw [dup_eq_tiers, href]
  have hg : geoFires dist p1 p2 5 = false := by
    unfold geoFires
    rw [hc1, hc2]
    simp [hp1]
  rw [hg, Bool.or_false]

theorem C10_zero_price_not_duplicate_witness :
    are_properties_duplicate (fun _ _ => 3)
      ⟨"Villa", "Javea", 0, "house", "", some (1, 2)⟩
      ⟨"Chalet", "Xàbia", 0, "house", "", some (1, 2)⟩ 5 = false :=
  C10_zero_price_not_duplicate (fun _ _ => 3) _ _ (1, 2) (1, 2)
    (by decide) rfl rfl (by decide) rfl rfl rfl

/- ## Dedup pipeline invariants (C9) -/

/-- One step of the deduplication fold. -/
def dedupStep (dist : Coord → Coord → ℚ) (acc : List Property × Nat)
    (prop : Property) : List Property × Nat :=
  match acc.1.find? (fun u => are_properties_duplicate dist prop u 5) with
  | some _ => (acc.1, acc.2 + 1)
  | none => (acc.1 ++ [prop], acc.2)

theorem deduplicate_eq_foldl (dist : Coord → Coord → ℚ) (props : List Property) :
    deduplicate_properties dist props = props.foldl (dedupStep dist) ([], 0) := by
  rfl

/-- A fold step counts a duplicate exactly when some accepted listing matches,
and appends the candidate otherwise. -/
theorem dedupStep_eq (dist : Coord → Coord → ℚ) (acc : List Property × Nat)
    (p : Property) :
    dedupStep dist acc p =
      if acc.1.any (fun u => are_properties_duplicate dist p u 5)
        then (acc.1, acc.2 + 1)
        else (acc.1 ++ [p], acc.2) := by
  unfold dedupStep
  cases h : acc.1.find? (fun u => are_properties_duplicate dist p u 5)
  · have ha : acc.1.any (fun u => are_properties_duplicate dist p u 5) = false := by
      rw [List.any_eq_false]
      intro u hu
      simpa using List.find?_eq_none.mp h u hu
    rw [ha]
    simp
  · rename_i v
    have hv : are_properties_duplicate dist p v 5 = true := by
      simpa using List.find?_some h
    have ha : acc.1.any (fun u => are_properties_duplicate dist p u 5) = true :=
      List.any_eq_true.mpr ⟨v, List.mem_of_find?_eq_some h, hv⟩
    rw [ha]
    simp

theorem dedup_foldl_length (dist : Coord → Coord → ℚ) :
    ∀ (props : List Property) (acc : List Property × Nat),
      (props.foldl (dedupStep dist) acc).1.length + (props.foldl (dedupStep dist) acc).2
        = acc.1.length + acc.2 + props.length := by
  intro props
  induction props with
  | nil => intro acc; simp
  | cons p rest ih =>
    intro acc
    rw [List.foldl_cons]
    rw [ih (dedupStep dist acc p)]
    unfold dedupStep
    cases h : acc.1.find? (fun u => are_properties_duplicate dist p u 5) <;>
      simp <;> omega

theorem dedup_foldl_sublist (dist : Coord → Coord → ℚ) :
    ∀ (props : List Property) (acc : List Property × Nat),
      ∃ s, (props.foldl (dedupStep dist) acc).1 = acc.1 ++ s ∧ s.Sublist props := by
  intro props
  induction props with
  | nil => intro acc; exact ⟨[], by simp⟩
  | cons p rest ih =>
    intro acc
    rw [List.foldl_cons]
    unfold dedupStep
    cases h : acc.1.find? (fun u => are_properties_duplicate dist p u 5)
    · obtain ⟨s, hs, hsub⟩ := ih (acc.1 ++ [p], acc.2)
      exact ⟨p :: s, by simpa using hs, List.Sublist.cons₂ p hsub⟩
    · obtain ⟨s, hs, hsub⟩ := ih (acc.1, acc.2 + 1)
      exact ⟨s, hs, List.Sublist.cons p hsub⟩

/-- Two properties sharing source reference `REF-100`, used in the end-to-end
deduplication scenario of the spec. -/
def refProp1 : Property :=
  ⟨"Villa REF-100", "Javea, Arenal", 320000, "house", "REF-100", none⟩

def refProp2 : Property :=
  ⟨"Another listing", "Denia", 555000, "apartment", "REF-100", some (1, 2)⟩

/-- C9: the deduplication pass (i) yields an accepted list that is an
order-preserving subsequence of the input with accepted-count plus
duplicate-count equal to the input length, (ii) processes a new candidate by
comparing it against the accepted listings, counting a duplicate if some
accepted listing matches and appending it otherwise, and (iii) on a batch of
two candidates sharing source reference `REF-100` accepts one listing and
counts one duplicate. -/
theorem C9_dedup_invariants :
    (∀ (dist : Coord → Coord → ℚ) (props : List Property),
      ((deduplicate_properties dist props).1).Sublist props ∧
      (deduplicate_properties dist props).1.length
        + (deduplicate_properties dist props).2 = props.length) ∧
    (∀ (dist : Coord → Coord → ℚ) (ps : List Property) (p : Property),
      deduplicate_properties dist (ps ++ [p]) =
        (if (deduplicate_properties dist ps).1.any
              (fun u => are_properties_duplicate dist p u 5)
          then ((deduplicate_properties dist ps).1,
                (deduplicate_properties dist ps).2 + 1)
          else ((deduplicate_properties dist ps).1 ++ [p],
                (deduplicate_properties dist ps).2))) ∧
    deduplicate_properties (fun _ _ => 0) [refProp1, refProp2] = ([refProp1], 1) := by
  refine ⟨fun dist props => ?_, fun dist ps p => ?_, by decide⟩
  · constructor
    · rw [deduplicate_eq_foldl]
      obtain ⟨s, hs, hsub⟩ := dedup_foldl_sublist dist props ([], 0)
      rw [hs]
      simpa using hsub
    · rw [deduplicate_eq_foldl]
      have := dedup_foldl_length dist props ([], 0)
      simpa using this
  · rw [deduplicate_eq_foldl dist (ps ++ [p]), List.foldl_append]
    rw [List.foldl_cons, List.foldl_nil]
    rw [deduplicate_eq_foldl dist ps]
    exact dedupStep_eq dist _ p

/- ## process_and_upload.py : extract_municipality_and_area -/

/-- The `area_mappings` table, in declaration order. -/
def area_mappings : List (String × String) :=
  [("arenal", "arenal"),
   ("beach", "arenal"),
   ("portichol", "portitxol"),
   ("portitxol", "portitxol"),
   ("puerto", "puerto"),
   ("port", "puerto"),
   ("old town", "casco-antiguo"),
   ("casco antiguo", "casco-antiguo"),
   ("pueblo", "casco-antiguo"),
   ("cap marti", "cap-marti"),
   ("cap martí", "cap-marti"),
   ("granadella", "granadella"),
   ("montgo", "montgo"),
   ("montgó", "montgo"),
   ("gracia", "gracia"),
   ("gràcia", "gracia"),
   ("adsubia", "adsubia"),
   ("balcon al mar", "balcon-al-mar"),
   ("balcón al mar", "balcon-al-mar"),
   ("pinosol", "pinosol")]

/-- The `for key, slug in mappings: if key in text: area = slug; break` loop. -/
def scanAreas : List (String × String) → String → Option String
  | [], _ => none
  | (key, slug) :: rest, t =>
    if containsSubS key t then some slug else scanAreas rest t

/-- `extract_municipality_and_area` from process_and_upload.py: the
municipality is always `Javea`; the area is the slug of the first table entry
(in declaration order) whose keyword occurs in the normalized location. -/
def extract_municipality_and_area (location : String) : String × Option String :=
  ("Javea", scanAreas area_mappings (normalize_location location))

/- ## new_scraper.py : normalize_text and detect_area -/

/-- `normalize_text` from new_scraper.py: lower-case and strip
(empty input is returned unchanged). -/
def normalize_text (text : String) : String :=
  if text = "" then "" else pyStripS (pyLowerS text)

/-- The `AREAS` table of new_scraper.py in declaration order, with the
byte-exact keys of the source file (several keys contain the literal
mojibake characters present in the file). -/
def AREAS : List (String × String) :=
  [("arenal", "arenal"),
   ("arenal beach", "arenal"),
   ("playa arenal", "arenal"),
   ("puerto", "puerto"),
   ("port", "puerto"),
   ("marina", "puerto"),
   ("pueblo", "casco-antiguo"),
   ("old town", "casco-antiguo"),
   ("casco antiguo", "casco-antiguo"),
   ("historic center", "casco-antiguo"),
   ("montgo", "montgo"),
   ("montgÃ³", "montgo"),
   ("cap marti", "cap-marti"),
   ("cap martÃ­", "cap-marti"),
   ("granadella", "granadella"),
   ("cala granadella", "granadella"),
   ("portitxol", "portitxol"),
   ("portichol", "portitxol"),
   ("pinosol", "pinosol"),
   ("tosalet", "tosalet"),
   ("cumbres del tosalet", "tosalet"),
   ("el tosalet", "tosalet"),
   ("costa nova", "costa-nova"),
   ("cala blanca", "cala-blanca"),
   ("balcon al mar", "balcon-al-mar"),
   ("balcÃ³n al mar", "balcon-al-mar"),
   ("adsubia", "adsubia"),
   ("la lluca", "la-lluca"),
   ("gracia", "gracia"),
   ("grÃ cia", "gracia"),
   ("toscamar", "toscamar"),
   ("piver", "piver"),
   ("la corona", "la-corona"),
   ("rafalet", "rafalet"),
   ("capsades", "capsades"),
   ("cansalades", "cansalades"),
   ("puerta fenicia", "puerta-fenicia"),
   ("senioles", "senioles"),
   ("villes del vent", "villes-del-vent"),
   ("les marines", "les-marines"),
   ("las marinas", "les-marines"),
   ("deveses", "deveses"),
   ("les deveses", "deveses"),
   ("montgÃ³ (denia)", "montgo-denia")]

/-- Stable insertion into a length-descending list: the new element goes
after all existing elements of greater or equal length.  Models the
stability of Python `sorted(keys, key=len, reverse=True)`. -/
def insertLenDesc (x : String) : List String → List String
  | [] => [x]
  | y :: ys => if x.length ≤ y.length then y :: insertLenDesc x ys else x :: y :: ys

/-- Stable sort by decreasing length. -/
def sortLenDesc (l : List String) : List String :=
  l.foldl (fun acc x => insertLenDesc x acc) []

/-- `detect_area` from new_scraper.py: normalize the text, sort the `AREAS`
keys by decreasing length (longer matches first), and return the slug of the
first sorted key occurring in the text. -/
def detect_area (text : String) : Option String :=
  let t := normalize_text text
  match (sortLenDesc (AREAS.map (fun p => p.1))).find? (fun k => containsSubS k t) with
  | some k => (AREAS.find? (fun p => p.1 == k)).map (fun p => p.2)
  | none => none

/-- Modelled from the claim's words, for refutation: the slug of the first
keyword in `AREAS` table-declaration order found in the normalized text. -/
def tableOrderArea (text : String) : Option String :=
  (AREAS.find? (fun p => containsSubS p.1 (normalize_text text))).map (fun p => p.2)

/-- The scan loop is the first table entry whose keyword matches. -/
theorem scanAreas_eq_find? (tbl : List (String × String)) (t : String) :
    scanAreas tbl t = (tbl.find? (fun p => containsSubS p.1 t)).map (fun p => p.2) := by
  induction tbl with
  | nil => rfl
  | cons p rest ih =>
    obtain ⟨key, slug⟩ := p
    unfold scanAreas
    rw [List.find?_cons]
    cases h : containsSubS key t
    · simpa [h] using ih
    · simp [h]

/-- C4 counterexample: `detect_area` does not return the slug of the first
matching keyword in table-declaration order.  On "Old Town, Arenal" the first
matching table entry is ("arenal", "arenal"), but `detect_area` sorts keys
longest-first and returns "casco-antiguo". -/
theorem C4_counterexample :
    detect_area "Old Town, Arenal" = some "casco-antiguo" ∧
    tableOrderArea "Old Town, Arenal" = some "arenal" := by
  constructor
  · decide
  · decide

/-- C4 amended: `extract_municipality_and_area` does return the slug of the
first keyword in table-declaration order (never any later or longer match)
found in the normalized location, with municipality fixed to `Javea`, and
resolves "Old Town, Arenal" to the single slug "arenal"; `detect_area` of
new_scraper.py instead scans keywords longest-first and resolves the same
input to "casco-antiguo". -/
theorem C4_area_extraction :
    (∀ loc : String, extract_municipality_and_area loc =
      ("Javea", (area_mappings.find?
        (fun p => containsSubS p.1 (normalize_location loc))).map (fun p => p.2))) ∧
    extract_municipality_and_area "Old Town, Arenal" = ("Javea", some "arenal") ∧
    detect_area "Old Town, Arenal" = some "casco-antiguo" := by
  refine ⟨fun loc => ?_, by decide, by decide⟩
  unfold extract_municipality_and_area
  rw [scanAreas_eq_find?]

/- ## process_and_upload.py : get_coordinates -/

/-- The `known_locations` list of `extract_location_from_title`, in order. -/
def known_locations : List String :=
  ["Costa Nova", "Cala Blanca", "Cala Granadella", "Granadella",
   "Cumbres Del Tosalet", "Tosalet", "Balcon al Mar", "Balcón al Mar",
   "Cap Marti", "Cap Martí", "Portichol", "Portitxol",
   "Arenal", "Arenal Beach", "Playa Arenal",
   "Pinosol", "Adsubia", "La Lluca",
   "Montgo", "Montgó", "Monte Pego",
   "Pueblo", "Old Town", "Casco Antiguo",
   "Puerto", "Port", "Marina",
   "Gracia", "Gràcia",
   "Toscamar", "El Tosalet", "Piver",
   "La Corona", "Rafalet", "Capsades"]

/-- `extract_location_from_title`: the known locations whose upper-cased form
occurs in the upper-cased title, in table order. -/
def extract_location_from_title (title : String) : List String :=
  if title = "" then []
  else known_locations.filter (fun loc => containsSubS (pyUpperS loc) (pyUpperS title))

/-- Python `s.split(',')`. -/
def splitComma : List Char → List (List Char)
  | [] => [[]]
  | c :: rest =>
    if c = ',' then [] :: splitComma rest
    else
      match splitComma rest with
      | [] => [[c]]
      | p :: ps => (c :: p) :: ps

/-- Python `', '.join(parts)`. -/
def joinCommaSpace : List String → String
  | [] => ""
  | [x] => x
  | x :: y :: ys => x ++ ", " ++ joinCommaSpace (y :: ys)

/-- `strip_javea_from_location`: normalize, split on commas, strip each part,
drop empty parts and parts equal to "javea", re-join with ", ". -/
def strip_javea_from_location (location : String) : String :=
  if location = "" then location
  else
    let normalized := normalize_location location
    let parts := (splitComma normalized.data).map (fun p => pyStrip p)
    let filtered := parts.filter (fun p => !p.isEmpty && !(p == "javea".data))
    joinCommaSpace (filtered.map (fun p => (⟨p⟩ : String)))

/-- The raw ordered query list of `get_coordinates`: title keywords with the
Javea hierarchy, then the cleaned location field with the Javea hierarchy,
then the cleaned location field with the broader Alicante/Valencia hierarchy.
No bare province/country query is ever added. -/
def search_queries (title location : String) : List String :=
  let title_locations := extract_location_from_title title
  let location_clean := strip_javea_from_location location
  ((title_locations.map (fun tl =>
      let tlc := normalize_location tl
      [tlc ++ ", Javea, Alicante, Spain", tlc ++ ", Javea, Spain"])).flatten)
  ++ (if location_clean ≠ "" then
        [location_clean ++ ", Javea, Alicante, Spain",
         location_clean ++ ", Javea, Spain"]
      else [])
  ++ (if location_clean ≠ "" then
        [location_clean ++ ", Alicante, Valencia, Spain",
         location_clean ++ ", Valencia, Spain"]
      else [])

/-- Order-preserving removal of duplicate queries via a `seen` set. -/
def dedupeSeen (seen : List String) : List String → List String
  | [] => []
  | q :: rest =>
    if q ∈ seen then dedupeSeen seen rest
    else q :: dedupeSeen (q :: seen) rest

def unique_queries (title location : String) : List String :=
  dedupeSeen [] (search_queries title location)

/-- Outcome of one external `geolocator.geocode` call: a result, no result,
a transient rate-limit error (403/503/too many requests), or any other
(permanent) error. -/
inductive GeoResponse where
  | found (lat lon : ℚ)
  | notFound
  | rateLimited
  | failed
deriving DecidableEq

/-- Observable events of a resolution: an external call or a sleep of the
given duration.  Durations are in tenths of a second, so the code's 1.2 s
inter-query delay is 12 and the backoff waits 2 s, 4 s, 8 s are 20, 40, 80. -/
inductive GeoEvent where
  | call (query : String)
  | sleep (deciseconds : ℚ)
deriving DecidableEq

/-- Result of running the query loop: resolved coordinates (if any), the
next oracle index, and the emitted event trace. -/
structure RunResult where
  res : Option Coord
  calls : Nat
  trace : List GeoEvent
deriving DecidableEq

/-- The inner retry loop of `get_coordinates` for one query: up to
`remaining` attempts; a result returns, no result or a permanent error
abandons the query, a rate-limit error sleeps `2^attempt * 2` seconds
(`2^attempt * 20` deciseconds) and retries (the final attempt still sleeps
before giving up). -/
def doAttempts (oracle : Nat → GeoResponse) (q : String) :
    Nat → Nat → Nat → RunResult
  | _, 0, calls => ⟨none, calls, []⟩
  | attempt, remaining+1, calls =>
    match oracle calls with
    | .found lat lon => ⟨some (lat, lon), calls + 1, [.call q]⟩
    | .notFound => ⟨none, calls + 1, [.call q]⟩
    | .failed => ⟨none, calls + 1, [.call q]⟩
    | .rateLimited =>
      let w : ℚ := 2 ^ attempt * 20
      if remaining = 0 then
        ⟨none, calls + 1, [.call q, .sleep w]⟩
      else
        let r := doAttempts oracle q (attempt + 1) remaining (calls + 1)
        ⟨r.res, r.calls, .call q :: .sleep w :: r.trace⟩

/-- The outer query loop of `get_coordinates`: try each query (3 attempts);
return at the first result, otherwise sleep 1.2 s (12 deciseconds) and move
to the next query; `none` when all queries are exhausted. -/
def runQueries (oracle : Nat → GeoResponse) : Nat → List String → RunResult
  | calls, [] => ⟨none, calls, []⟩
  | calls, q :: rest =>
    let r := doAttempts oracle q 0 3 calls
    match r.res with
    | some c => ⟨some c, r.calls, r.trace⟩
    | none =>
      let r2 := runQueries oracle r.calls rest
      ⟨r2.res, r2.calls, r.trace ++ .sleep 12 :: r2.trace⟩

/-- Result of one `get_coordinates` invocation. -/
structure GeoOut where
  res : Option Coord
  cache : List (String × Coord)
  trace : List GeoEvent
  calls : Nat
deriving DecidableEq

/-- `get_coordinates` from process_and_upload.py: check the cache under the
raw `title_location` key; on a miss run the de-duplicated query list and
cache the result only on success. -/
def get_coordinates (oracle : Nat → GeoResponse) (calls : Nat)
    (cache : List (String × Coord)) (title location : String) : GeoOut :=
  let cache_key := title ++ "_" ++ location
  match cache.find? (fun e => e.1 == cache_key) with
  | some e => ⟨some e.2, cache, [], calls⟩
  | none =>
    let r := runQueries oracle calls (unique_queries title location)
    match r.res with
    | some c => ⟨some c, (cache_key, c) :: cache, r.trace, r.calls⟩
    | none => ⟨none, cache, r.trace, r.calls⟩

/- ## Spec-side trace predicates -/

/-- The queries of the external calls in a trace, in order. -/
def callsOf (tr : List GeoEvent) : List String :=
  tr.filterMap (fun e =>
    match e with
    | .call q => some q
    | .sleep _ => none)

/-- Scan state: `none` before the first call, `some a` when `a` deciseconds
of sleep have accumulated since the most recent call. -/
def gapsFrom : Option ℚ → List GeoEvent → Bool
  | _, [] => true
  | none, .call _ :: rest => gapsFrom (some 0) rest
  | some acc, .call _ :: rest => decide ((12 : ℚ) ≤ acc) && gapsFrom (some 0) rest
  | st, .sleep d :: rest => gapsFrom (st.map (fun a => a + d)) rest

/-- Every two consecutive external calls in the trace are separated by at
least 1.2 s (12 deciseconds) of accumulated sleep. -/
def minDelayRespected (tr : List GeoEvent) : Bool := gapsFrom none tr

/-- The scan-state transformer of `gapsFrom`. -/
def scanSt : Option ℚ → List GeoEvent → Option ℚ
  | st, [] => st
  | _, .call _ :: rest => scanSt (some 0) rest
  | st, .sleep d :: rest => scanSt (st.map (fun a => a + d)) rest


theorem gapsFrom_append (t1 t2 : List GeoEvent) :
    ∀ st, gapsFrom st (t1 ++ t2) = (gapsFrom st t1 && gapsFrom (scanSt st t1) t2) := by
  induction t1 with
  | nil => intro st; simp [gapsFrom, scanSt]
  | cons e rest ih =>
    intro st
    cases e with
    | call q =>
      cases st with
      | none =>
        simpa [gapsFrom, scanSt] using ih (some 0)
      | some a =>
        simp only [List.cons_append, gapsFrom, scanSt, List.append_eq]
        rw [ih (some 0), Bool.and_assoc]
    | sleep d =>
      cases st <;> simp [gapsFrom, scanSt, ih]

/-- The backoff wait `2^attempt * 20` deciseconds is at least 12. -/
theorem backoff_ge (attempt : Nat) : (12 : ℚ) ≤ 2 ^ attempt * 20 := by
  have h1 : (1 : ℚ) ≤ 2 ^ attempt := one_le_pow₀ (by norm_num)
  nlinarith

/-- Gap discipline of the inner retry loop: its trace respects the minimum
delay whether entered fresh or at least 12 deciseconds after a previous
call, and its scan state ends with a non-negative sleep amount after its
last call. -/
theorem doAttempts_gaps (oracle : Nat → GeoResponse) (q : String) :
    ∀ (rem attempt calls : Nat),
      (∀ a : ℚ, 12 ≤ a →
        gapsFrom (some a) (doAttempts oracle q attempt (rem+1) calls).trace = true) ∧
      gapsFrom none (doAttempts oracle q attempt (rem+1) calls).trace = true ∧
      (∀ st : Option ℚ, ∃ b : ℚ, 0 ≤ b ∧
        scanSt st (doAttempts oracle q attempt (rem+1) calls).trace = some b) := by
  intro rem
  induction rem with
  | zero =>
    intro attempt calls
    cases h : oracle calls with
    | found lat lon =>
      refine ⟨fun a ha => ?_, ?_, fun st => ⟨0, le_refl 0, ?_⟩⟩
      · simp [doAttempts, h, gapsFrom, ha]
      · simp [doAttempts, h, gapsFrom]
      · simp [doAttempts, h, scanSt]
    | notFound =>
      refine ⟨fun a ha => ?_, ?_, fun st => ⟨0, le_refl 0, ?_⟩⟩
      · simp [doAttempts, h, gapsFrom, ha]
      · simp [doAttempts, h, gapsFrom]
      · simp [doAttempts, h, scanSt]
    | failed =>
      refine ⟨fun a ha => ?_, ?_, fun st => ⟨0, le_refl 0, ?_⟩⟩
      · simp [doAttempts, h, gapsFrom, ha]
      · simp [doAttempts, h, gapsFrom]
      · simp [doAttempts, h, scanSt]
    | rateLimited =>
      refine ⟨fun a ha => ?_, ?_,
          fun st => ⟨2 ^ attempt * 20, by positivity, ?_⟩⟩
      · simp [doAttempts, h, gapsFrom, ha]
      · simp [doAttempts, h, gapsFrom]
      · simp [doAttempts, h, scanSt]
  | succ rem ih =>
    intro attempt calls
    cases h : oracle calls with
    | found lat lon =>
      refine ⟨fun a ha => ?_, ?_, fun st => ⟨0, le_refl 0, ?_⟩⟩
      · simp [doAttempts, h, gapsFrom, ha]
      · simp [doAttempts, h, gapsFrom]
      · simp [doAttempts, h, scanSt]
    | notFound =>
      refine ⟨fun a ha => ?_, ?_, fun st => ⟨0, le_refl 0, ?_⟩⟩
      · simp [doAttempts, h, gapsFrom, ha]
      · simp [doAttempts, h, gapsFrom]
      · simp [doAttempts, h, scanSt]
    | failed =>
      refine ⟨fun a ha => ?_, ?_, fun st => ⟨0, le_refl 0, ?_⟩⟩
      · simp [doAttempts, h, gapsFrom, ha]
      · simp [doAttempts, h, gapsFrom]
      · simp [doAttempts, h, scanSt]
    | rateLimited =>
      obtain ⟨iha, ihn, ihs⟩ := ih (attempt + 1) (calls + 1)
      have hw : (12 : ℚ) ≤ 2 ^ attempt * 20 := backoff_ge attempt
      refine ⟨fun a ha => ?_, ?_, fun st => ?_⟩
      · simp only [doAttempts, h, Nat.succ_ne_zero, if_false, gapsFrom, ha,
          decide_True, Bool.true_and, Option.map_some', zero_add]
        exact iha _ hw
      · simp only [doAttempts, h, Nat.succ_ne_zero, if_false, gapsFrom,
          Option.map_some', zero_add]
        exact iha _ hw
      · obtain ⟨b, hb, hsc⟩ := ihs (some (2 ^ attempt * 20))
        refine ⟨b, hb, ?_⟩
        simp only [doAttempts, h, Nat.succ_ne_zero, if_false, scanSt,
          Option.map_some', zero_add]
        exact hsc

/-- The gap properties of the inner loop at the code's 3-attempt budget. -/
theorem doAttempts3_gaps (oracle : Nat → GeoResponse) (q : String) (calls : Nat) :
    (∀ a : ℚ, 12 ≤ a →
      gapsFrom (some a) (doAttempts oracle q 0 3 calls).trace = true) ∧
    gapsFrom none (doAttempts oracle q 0 3 calls).trace = true ∧
    (∀ st : Option ℚ, ∃ b : ℚ, 0 ≤ b ∧
      scanSt st (doAttempts oracle q 0 3 calls).trace = some b) :=
  doAttempts_gaps oracle q 2 0 calls

/-- One unfolding step of the outer query loop. -/
theorem runQueries_cons (oracle : Nat → GeoResponse) (calls : Nat)
    (q : String) (rest : List String) :
    runQueries oracle calls (q :: rest) =
      match (doAttempts oracle q 0 3 calls).res with
      | some c =>
        ⟨some c, (doAttempts oracle q 0 3 calls).calls,
         (doAttempts oracle q 0 3 calls).trace⟩
      | none =>
        ⟨(runQueries oracle (doAttempts oracle q 0 3 calls).calls rest).res,
         (runQueries oracle (doAttempts oracle q 0 3 calls).calls rest).calls,
         (doAttempts oracle q 0 3 calls).trace ++
           GeoEvent.sleep 12 ::
             (runQueries oracle (doAttempts oracle q 0 3 calls).calls rest).trace⟩ := by
  rfl

/-- Gap discipline of the outer query loop. -/
theorem runQueries_gaps (oracle : Nat → GeoResponse) :
    ∀ (qs : List String) (calls : Nat),
      gapsFrom none (runQueries oracle calls qs).trace = true ∧
      (∀ a : ℚ, 12 ≤ a →
        gapsFrom (some a) (runQueries oracle calls qs).trace = true) := by
  intro qs
  induction qs with
  | nil => intro calls; exact ⟨rfl, fun a _ => rfl⟩
  | cons q rest ih =>
    intro calls
    obtain ⟨da, dn, ds⟩ := doAttempts3_gaps oracle q calls
    have key : ∀ st : Option ℚ,
        gapsFrom st (doAttempts oracle q 0 3 calls).trace = true →
        gapsFrom st (runQueries oracle calls (q :: rest)).trace = true := by
      intro st hst
      rw [runQueries_cons]
      cases hres : (doAttempts oracle q 0 3 calls).res with
      | some c => simpa [hres] using hst
      | none =>
        simp only [hres]
        rw [gapsFrom_append _ _ st, hst, Bool.true_and]
        obtain ⟨b, hb, hsc⟩ := ds st
        rw [hsc]
        have step : gapsFrom (some b) (GeoEvent.sleep 12 ::
            (runQueries oracle (doAttempts oracle q 0 3 calls).calls rest).trace)
            = gapsFrom (some (b + 12))
                (runQueries oracle (doAttempts oracle q 0 3 calls).calls rest).trace := by
          simp [gapsFrom]
        rw [step]
        exact (ih _).2 (b + 12) (by linarith)
    exact ⟨key none dn, fun a ha => key (some a) (da a ha)⟩

/-- One unfolding step of `get_coordinates`. -/
theorem get_coordinates_eq (oracle : Nat → GeoResponse) (calls : Nat)
    (cache : List (String × Coord)) (title location : String) :
    get_coordinates oracle calls cache title location =
      match cache.find? (fun e => e.1 == title ++ "_" ++ location) with
      | some e => ⟨some e.2, cache, [], calls⟩
      | none =>
        match (runQueries oracle calls (unique_queries title location)).res with
        | some c =>
          ⟨some c, (title ++ "_" ++ location, c) :: cache,
           (runQueries oracle calls (unique_queries title location)).trace,
           (runQueries oracle calls (unique_queries title location)).calls⟩
        | none =>
          ⟨none, cache,
           (runQueries oracle calls (unique_queries title location)).trace,
           (runQueries oracle calls (unique_queries title location)).calls⟩ := by
  rfl

/-- C6 amended: within a single `get_coordinates` invocation, any two
consecutive external geocode calls are separated by at least 1.2 s of
enforced sleep (the 1.2 s inter-query delay, or a backoff sleep of at least
2 s).  A successful call returns immediately with no trailing delay. -/
theorem C6_min_delay_within_invocation (oracle : Nat → GeoResponse)
    (calls : Nat) (cache : List (String × Coord)) (title location : String) :
    minDelayRespected (get_coordinates oracle calls cache title location).trace = true := by
  unfold minDelayRespected
  rw [get_coordinates_eq]
  cases hc : cache.find? (fun e => e.1 == title ++ "_" ++ location) with
  | some e => rfl
  | none =>
    cases hres : (runQueries oracle calls (unique_queries title location)).res with
    | some c =>
      simpa using (runQueries_gaps oracle (unique_queries title location) calls).1
    | none =>
      simpa using (runQueries_gaps oracle (unique_queries title location) calls).1

/-- C6 counterexample: a successful call returns with no trailing delay, so
the first call of the next invocation follows it immediately: the
concatenated trace of two back-to-back invocations (the first of which
succeeded on its first external call) violates the minimum-delay property,
refuting the claim for consecutive calls across a success. -/
theorem C6_counterexample :
    (let o : Nat → GeoResponse := fun _ => .found 1 2
     let r1 := get_coordinates o 0 [] "Villa" "Cansalades"
     let r2 := get_coordinates o r1.calls r1.cache "Apartment" "Cansalades"
     r1.res = some (1, 2) ∧
     r1.trace = [.call "cansalades, Javea, Alicante, Spain"] ∧
     minDelayRespected (r1.trace ++ r2.trace) = false) := by
  decide

/- ## C7 : cache behaviour -/

/-- `get_coordinates` on a cache hit: the cached value, no events. -/
theorem get_coordinates_hit (oracle : Nat → GeoResponse) (calls : Nat)
    (cache : List (String × Coord)) (title location : String) (e : String × Coord)
    (hc : cache.find? (fun x => x.1 == title ++ "_" ++ location) = some e) :
    get_coordinates oracle calls cache title location = ⟨some e.2, cache, [], calls⟩ := by
  show (match cache.find? (fun x => x.1 == title ++ "_" ++ location) with
        | some e => (⟨some e.2, cache, [], calls⟩ : GeoOut)
        | none =>
          match (runQueries oracle calls (unique_queries title location)).res with
          | some c =>
            ⟨some c, (title ++ "_" ++ location, c) :: cache,
             (runQueries oracle calls (unique_queries title location)).trace,
             (runQueries oracle calls (unique_queries title location)).calls⟩
          | none =>
            ⟨none, cache,
             (runQueries oracle calls (unique_queries title location)).trace,
             (runQueries oracle calls (unique_queries title location)).calls⟩)
      = (⟨some e.2, cache, [], calls⟩ : GeoOut)
  rw [hc]

/-- `get_coordinates` on a cache miss with a successful resolution: the
result is cached under the raw key. -/
theorem get_coordinates_miss_found (oracle : Nat → GeoResponse) (calls : Nat)
    (cache : List (String × Coord)) (title location : String) (c : Coord)
    (hc : cache.find? (fun x => x.1 == title ++ "_" ++ location) = none)
    (hr : (runQueries oracle calls (unique_queries title location)).res = some c) :
    get_coordinates oracle calls cache title location =
      ⟨some c, (title ++ "_" ++ location, c) :: cache,
       (runQueries oracle calls (unique_queries title location)).trace,
       (runQueries oracle calls (unique_queries title location)).calls⟩ := by
  show (match cache.find? (fun x => x.1 == title ++ "_" ++ location) with
        | some e => (⟨some e.2, cache, [], calls⟩ : GeoOut)
        | none =>
          match (runQueries oracle calls (unique_queries title location)).res with
          | some c =>
            ⟨some c, (title ++ "_" ++ location, c) :: cache,
             (runQueries oracle calls (unique_queries title location)).trace,
             (runQueries oracle calls (unique_queries title location)).calls⟩
          | none =>
            ⟨none, cache,
             (runQueries oracle calls (unique_queries title location)).trace,
             (runQueries oracle calls (unique_queries title location)).calls⟩)
      = _
  rw [hc, hr]

/-- `get_coordinates` on a cache miss with a failed resolution: nothing is
cached. -/
theorem get_coordinates_miss_none (oracle : Nat → GeoResponse) (calls : Nat)
    (cache : List (String × Coord)) (title location : String)
    (hc : cache.find? (fun x => x.1 == title ++ "_" ++ location) = none)
    (hr : (runQueries oracle calls (unique_queries title location)).res = none) :
    get_coordinates oracle calls cache title location =
      ⟨none, cache,
       (runQueries oracle calls (unique_queries title location)).trace,
       (runQueries oracle calls (unique_queries title location)).calls⟩ := by
  show (match cache.find? (fun x => x.1 == title ++ "_" ++ location) with
        | some e => (⟨some e.2, cache, [], calls⟩ : GeoOut)
        | none =>
          match (runQueries oracle calls (unique_queries title location)).res with
          | some c =>
            ⟨some c, (title ++ "_" ++ location, c) :: cache,
             (runQueries oracle calls (unique_queries title location)).trace,
             (runQueries oracle calls (unique_queries title location)).calls⟩
          | none =>
            ⟨none, cache,
             (runQueries oracle calls (unique_queries title location)).trace,
             (runQueries oracle calls (unique_queries title location)).calls⟩)
      = _
  rw [hc, hr]

/-- C7 amended: when an invocation of `get_coordinates` resolves
successfully, the result is cached under the raw `title_location` key and a
second invocation with the same pair returns the cached coordinates with an
empty event trace — no external lookup at all; a failed resolution however
leaves the cache unchanged, so a second identical call re-issues its
queries. -/
theorem C7_cache_behavior (oracle oracle2 : Nat → GeoResponse)
    (calls calls2 : Nat) (cache : List (String × Coord)) (title location : String) :
    (∀ c : Coord, (get_coordinates oracle calls cache title location).res = some c →
      get_coordinates oracle2 calls2
          (get_coordinates oracle calls cache title location).cache title location
        = ⟨some c, (get_coordinates oracle calls cache title location).cache, [], calls2⟩) ∧
    ((get_coordinates oracle calls cache title location).res = none →
      (get_coordinates oracle calls cache title location).cache = cache) := by
  cases hc : cache.find? (fun x => x.1 == title ++ "_" ++ location) with
  | some e =>
    have h1 := get_coordinates_hit oracle calls cache title location e hc
    refine ⟨fun c h => ?_, fun h => ?_⟩
    · rw [h1] at h
      have hec : e.2 = c := by simpa using h
      rw [h1]
      show get_coordinates oracle2 calls2 cache title location
        = ⟨some c, cache, [], calls2⟩
      rw [get_coordinates_hit oracle2 calls2 cache title location e hc, hec]
    · rw [h1] at h
      exact absurd h (by simp)
  | none =>
    cases hr : (runQueries oracle calls (unique_queries title location)).res with
    | some c0 =>
      have h2 := get_coordinates_miss_found oracle calls cache title location c0 hc hr
      refine ⟨fun c h => ?_, fun h => ?_⟩
      · rw [h2] at h
        have hc0 : c0 = c := by simpa using h
        rw [h2]
        show get_coordinates oracle2 calls2
            ((title ++ "_" ++ location, c0) :: cache) title location
          = ⟨some c, (title ++ "_" ++ location, c0) :: cache, [], calls2⟩
        have hf : ((title ++ "_" ++ location, c0) :: cache).find?
            (fun x => x.1 == title ++ "_" ++ location)
            = some (title ++ "_" ++ location, c0) := by
          simp [List.find?]
        rw [get_coordinates_hit oracle2 calls2 _ title location _ hf]
        rw [hc0]
      · rw [h2] at h
        exact absurd h (by simp)
    | none =>
      have h3 := get_coordinates_miss_none oracle calls cache title location hc hr
      refine ⟨fun c h => ?_, fun _ => ?_⟩
      · rw [h3] at h
        exact absurd h (by simp)
      · rw [h3]

theorem C7_cache_behavior_witness :
    (let o1 : Nat → GeoResponse := fun _ => .found 1 2
     let r1 := get_coordinates o1 0 [] "Villa" "Cansalades"
     get_coordinates (fun _ => GeoResponse.notFound) 5 r1.cache "Villa" "Cansalades"
       = ⟨some (1, 2), r1.cache, [], 5⟩) ∧
    (get_coordinates (fun _ => GeoResponse.notFound) 0 [] "Villa" "Cansalades").cache = [] :=
  ⟨(C7_cache_behavior (fun _ => GeoResponse.found 1 2)
      (fun _ => GeoResponse.notFound) 0 5 [] "Villa" "Cansalades").1 (1, 2) (by decide),
   (C7_cache_behavior (fun _ => GeoResponse.notFound)
      (fun _ => GeoResponse.notFound) 0 5 [] "Villa" "Cansalades").2 (by decide)⟩

/-- C7 counterexample: a failed resolution is not cached, so calling the
resolver twice with the identical pair does not trigger exactly one external
lookup: each of the two calls issues its four candidate queries (eight
lookups in total), and the second call returns nothing from the cache. -/
theorem C7_counterexample :
    (let o : Nat → GeoResponse := fun _ => .notFound
     let r1 := get_coordinates o 0 [] "Villa" "Cansalades"
     let r2 := get_coordinates o r1.calls r1.cache "Villa" "Cansalades"
     (callsOf r1.trace).length = 4 ∧ (callsOf r2.trace).length = 4 ∧
     r1.cache = []) := by
  decide

/- ## C8 : query building and the stop-at-first-result loop -/

theorem dedupeSeen_props (l : List String) :
    ∀ seen : List String,
      (dedupeSeen seen l).Sublist l ∧
      (∀ x ∈ dedupeSeen seen l, x ∉ seen) ∧
      (dedupeSeen seen l).Nodup := by
  induction l with
  | nil =>
    intro seen
    exact ⟨List.Sublist.refl [], by simp [dedupeSeen], List.nodup_nil⟩
  | cons q rest ih =>
    intro seen
    by_cases hq : q ∈ seen
    · simp only [dedupeSeen, if_pos hq]
      obtain ⟨hs, hns, hnd⟩ := ih seen
      exact ⟨List.Sublist.cons q hs, hns, hnd⟩
    · simp only [dedupeSeen, if_neg hq]
      obtain ⟨hs, hns, hnd⟩ := ih (q :: seen)
      refine ⟨List.Sublist.cons₂ q hs, fun x hx => ?_, ?_⟩
      · rcases List.mem_cons.mp hx with hxq | hxr
        · exact hxq ▸ hq
        · intro hxs
          exact hns x hxr (List.mem_cons_of_mem q hxs)
      · exact List.nodup_cons.mpr
          ⟨fun hmem => hns q hmem (List.mem_cons_self q seen), hnd⟩

/-- The first attempt of a query, unfolded at the code's 3-attempt budget. -/
theorem doAttempts3_step (oracle : Nat → GeoResponse) (q : String) (calls : Nat) :
    doAttempts oracle q 0 3 calls =
      match oracle calls with
      | .found lat lon => ⟨some (lat, lon), calls + 1, [.call q]⟩
      | .notFound => ⟨none, calls + 1, [.call q]⟩
      | .failed => ⟨none, calls + 1, [.call q]⟩
      | .rateLimited =>
        ⟨(doAttempts oracle q 1 2 (calls + 1)).res,
         (doAttempts oracle q 1 2 (calls + 1)).calls,
         .call q :: .sleep (2 ^ 0 * 20) ::
           (doAttempts oracle q 1 2 (calls + 1)).trace⟩ := by
  rfl

/-- Modelled from the spec's words: the prefix of the query list up to and
including the first query answered with a result. -/
def takeUntilFound (oracle : Nat → GeoResponse) : Nat → List String → List String
  | _, [] => []
  | calls, q :: rest =>
    q :: (match oracle calls with
          | .found _ _ => []
          | _ => takeUntilFound oracle (calls + 1) rest)

/-- Modelled from the spec's words: the result of the first query answered
with a result, `none` if every query is exhausted. -/
def firstFound (oracle : Nat → GeoResponse) : Nat → List String → Option Coord
  | _, [] => none
  | calls, _ :: rest =>
    match oracle calls with
    | .found lat lon => some (lat, lon)
    | _ => firstFound oracle (calls + 1) rest

/-- On oracles without errors (each call either finds a result or finds
none), the query loop issues exactly the queries up to and including the
first one with a result, in order, and returns that result. -/
theorem runQueries_first_success (oracle : Nat → GeoResponse)
    (hclean : ∀ i, oracle i = .notFound ∨ ∃ lat lon, oracle i = .found lat lon) :
    ∀ (qs : List String) (calls : Nat),
      callsOf (runQueries oracle calls qs).trace = takeUntilFound oracle calls qs ∧
      (runQueries oracle calls qs).res = firstFound oracle calls qs := by
  intro qs
  induction qs with
  | nil => intro calls; exact ⟨rfl, rfl⟩
  | cons q rest ih =>
    intro calls
    rw [runQueries_cons]
    rcases hclean calls with h | ⟨lat, lon, h⟩
    · have hda : doAttempts oracle q 0 3 calls = ⟨none, calls + 1, [.call q]⟩ := by
        rw [doAttempts3_step, h]
      rw [hda]
      constructor
      · simp only [callsOf, List.filterMap_cons, List.filterMap_append,
          takeUntilFound, h]
        simpa [callsOf] using (ih (calls + 1)).1
      · simp only [firstFound, h]
        exact (ih (calls + 1)).2
    · have hda : doAttempts oracle q 0 3 calls
          = ⟨some (lat, lon), calls + 1, [.call q]⟩ := by
        rw [doAttempts3_step, h]
      rw [hda]
      constructor
      · simp [callsOf, takeUntilFound, h]
      · simp [firstFound, h]

/-- C8 amended: the duplicate-removal pass keeps an order-preserving,
duplicate-free selection of the raw query list; on error-free oracles the
loop issues the de-duplicated queries in order, stopping at the first query
that returns a result, and returns that result; and the built list is title
keywords with the Javea hierarchy, then the stripped location with the Javea
hierarchy, then the stripped location with the broader Alicante/Valencia
hierarchy — never a bare province/region/country anchor. -/
theorem C8_query_building :
    (∀ l : List String, (dedupeSeen [] l).Sublist l ∧ (dedupeSeen [] l).Nodup) ∧
    (∀ oracle : Nat → GeoResponse,
      (∀ i, oracle i = .notFound ∨ ∃ lat lon, oracle i = .found lat lon) →
      ∀ (qs : List String) (calls : Nat),
        callsOf (runQueries oracle calls qs).trace = takeUntilFound oracle calls qs ∧
        (runQueries oracle calls qs).res = firstFound oracle calls qs) ∧
    unique_queries "Villa in Costa Nova" "Javea, Cansalades" =
      ["costa nova, Javea, Alicante, Spain",
       "costa nova, Javea, Spain",
       "cansalades, Javea, Alicante, Spain",
       "cansalades, Javea, Spain",
       "cansalades, Alicante, Valencia, Spain",
       "cansalades, Valencia, Spain"] := by
  refine ⟨fun l => ⟨(dedupeSeen_props l []).1, (dedupeSeen_props l []).2.2⟩,
    runQueries_first_success, by decide⟩

theorem C8_query_building_witness :
    callsOf (runQueries (fun _ => GeoResponse.notFound) 0
        (unique_queries "Villa in Costa Nova" "Javea, Cansalades")).trace =
      takeUntilFound (fun _ => GeoResponse.notFound) 0
        (unique_queries "Villa in Costa Nova" "Javea, Cansalades") :=
  (C8_query_building.2.1 (fun _ => GeoResponse.notFound)
    (fun _ => Or.inl rfl) _ 0).1

/-- C8 counterexample: no bare province/region/country anchor is ever added.
With an empty title and a location equal to the municipality name the query
list is empty, and for a plain location every query carries the location
text — none is a bare anchor. -/
theorem C8_counterexample :
    unique_queries "" "Javea" = [] ∧
    unique_queries "" "Cansalades" =
      ["cansalades, Javea, Alicante, Spain",
       "cansalades, Javea, Spain",
       "cansalades, Alicante, Valencia, Spain",
       "cansalades, Valencia, Spain"] := by
  decide

/- ## C5 : idempotence of the normalizers -/

/-- No replacement-table key occurs in `s`. -/
def noKeyIn (s : String) : Bool :=
  replacements.all (fun p => !(containsSubS p.1 s))

theorem casePairs_snd_fixed :
    ∀ p ∈ casePairs, casePairs.find? (fun q => q.1 == p.2) = none := by
  decide

theorem pyLowerChar_eq_of_none (c : Char)
    (h : casePairs.find? (fun p => p.1 == c) = none) : pyLowerChar c = c := by
  unfold pyLowerChar
  rw [h]

theorem pyLowerChar_eq_of_some (c : Char) (p : Char × Char)
    (h : casePairs.find? (fun q => q.1 == c) = some p) : pyLowerChar c = p.2 := by
  unfold pyLowerChar
  rw [h]

theorem pyLowerChar_idem (c : Char) :
    pyLowerChar (pyLowerChar c) = pyLowerChar c := by
  cases hf : casePairs.find? (fun p => p.1 == c) with
  | none =>
    have h0 := pyLowerChar_eq_of_none c hf
    rw [h0]
    exact h0
  | some p =>
    have h0 := pyLowerChar_eq_of_some c p hf
    rw [h0]
    exact pyLowerChar_eq_of_none p.2
      (casePairs_snd_fixed p (List.mem_of_find?_eq_some hf))

theorem mem_pyLower_fixed (l : List Char) :
    ∀ c ∈ pyLower l, pyLowerChar c = c := by
  intro c hc
  obtain ⟨a, _, rfl⟩ := List.mem_map.mp hc
  exact pyLowerChar_idem a

theorem mem_pyStrip (l : List Char) : ∀ c ∈ pyStrip l, c ∈ l := by
  intro c hc
  unfold pyStrip at hc
  rw [List.mem_reverse] at hc
  have h1 : c ∈ (l.dropWhile isPySpace).reverse :=
    (List.dropWhile_sublist isPySpace).mem hc
  rw [List.mem_reverse] at h1
  exact (List.dropWhile_sublist isPySpace).mem h1

theorem mem_replaceGo (k v : List Char) :
    ∀ (l : List Char) (n : Nat) (c : Char),
      c ∈ replaceGo k v n l → c ∈ l ∨ c ∈ v := by
  intro l
  induction l with
  | nil => intro n c hc; simp [replaceGo] at hc
  | cons a rest ih =>
    intro n c hc
    cases n with
    | succ m =>
      simp only [replaceGo] at hc
      rcases ih m c hc with h | h
      · exact Or.inl (List.mem_cons_of_mem a h)
      · exact Or.inr h
    | zero =>
      simp only [replaceGo] at hc
      by_cases hcond : (!k.isEmpty && k.isPrefixOf (a :: rest)) = true
      · rw [if_pos hcond] at hc
        rcases List.mem_append.mp hc with h | h
        · exact Or.inr h
        · rcases ih _ c h with h2 | h2
          · exact Or.inl (List.mem_cons_of_mem a h2)
          · exact Or.inr h2
      · rw [if_neg hcond] at hc
        rcases List.mem_cons.mp hc with h | h
        · exact Or.inl (h ▸ List.mem_cons_self a rest)
        · rcases ih 0 c h with h2 | h2
          · exact Or.inl (List.mem_cons_of_mem a h2)
          · exact Or.inr h2

theorem mem_applyReps (tbl : List (String × String)) :
    ∀ (s : String) (c : Char), c ∈ (applyReps tbl s).data →
      c ∈ s.data ∨ ∃ p ∈ tbl, c ∈ (p.2).data := by
  induction tbl with
  | nil => intro s c hc; exact Or.inl hc
  | cons p tbl ih =>
    intro s c hc
    have hc' : c ∈ (applyReps tbl (replaceAllS p.1 p.2 s)).data := hc
    rcases ih _ c hc' with h | ⟨q, hq, hcq⟩
    · rcases mem_replaceGo p.1.data p.2.data s.data 0 c h with h2 | h2
      · exact Or.inl h2
      · exact Or.inr ⟨p, List.mem_cons_self p tbl, h2⟩
    · exact Or.inr ⟨q, List.mem_cons_of_mem p hq, hcq⟩

theorem map_fixed (f : Char → Char) (l : List Char)
    (h : ∀ c ∈ l, f c = c) : l.map f = l := by
  conv_rhs => rw [show l = l.map id from (List.map_id l).symm]
  exact List.map_congr_left h

theorem reps_vals_lower_fixed :
    ∀ p ∈ replacements, ∀ c ∈ (p.2).data, pyLowerChar c = c := by
  decide

theorem normalize_location_chars (s : String) :
    ∀ c ∈ (normalize_location s).data, pyLowerChar c = c := by
  intro c hc
  have hc' : c ∈ (applyReps replacements (pyStripS (pyLowerS s))).data := hc
  rcases mem_applyReps replacements _ c hc' with h | ⟨p, hp, hcp⟩
  · exact mem_pyLower_fixed s.data c (mem_pyStrip _ c h)
  · exact reps_vals_lower_fixed p hp c hcp

theorem pyLowerS_fixed (s : String)
    (h : ∀ c ∈ s.data, pyLowerChar c = c) : pyLowerS s = s := by
  obtain ⟨d⟩ := s
  exact congrArg String.mk (map_fixed pyLowerChar d h)

/- Edge (leading/trailing whitespace) discipline -/

/-- The first character, if any, is not whitespace. -/
def headOkB : List Char → Bool
  | [] => true
  | c :: _ => !isPySpace c

/-- The last character, if any, is not whitespace. -/
def lastOkB (l : List Char) : Bool := headOkB l.reverse

theorem headOkB_dropWhile (l : List Char) :
    headOkB (l.dropWhile isPySpace) = true := by
  induction l with
  | nil => rfl
  | cons a rest ih =>
    rw [List.dropWhile_cons]
    by_cases ha : isPySpace a = true
    · rw [if_pos ha]; exact ih
    · rw [if_neg ha]
      simp only [headOkB]
      simpa using ha

theorem pyStrip_headOk (l : List Char) : headOkB (pyStrip l) = true := by
  have hyh : headOkB (l.dropWhile isPySpace) = true := headOkB_dropWhile l
  have hsuf : (l.dropWhile isPySpace).reverse.dropWhile isPySpace
      <:+ (l.dropWhile isPySpace).reverse := List.dropWhile_suffix isPySpace
  obtain ⟨t, ht⟩ := hsuf
  have hy2 : l.dropWhile isPySpace
      = ((l.dropWhile isPySpace).reverse.dropWhile isPySpace).reverse ++ t.reverse := by
    have := congrArg List.reverse ht
    simpa [List.reverse_append] using this.symm
  show headOkB ((l.dropWhile isPySpace).reverse.dropWhile isPySpace).reverse = true
  cases hz : ((l.dropWhile isPySpace).reverse.dropWhile isPySpace).reverse with
  | nil => rfl
  | cons c w =>
    rw [hz] at hy2
    rw [hy2] at hyh
    simpa [headOkB] using hyh

theorem pyStrip_lastOk (l : List Char) : lastOkB (pyStrip l) = true := by
  unfold lastOkB pyStrip
  rw [List.reverse_reverse]
  exact headOkB_dropWhile _

theorem dropWhile_eq_self_of_headOk (l : List Char) (h : headOkB l = true) :
    l.dropWhile isPySpace = l := by
  cases l with
  | nil => rfl
  | cons c rest =>
    have hc : isPySpace c = false := by simpa [headOkB] using h
    rw [List.dropWhile_cons, if_neg (by simp [hc])]

theorem pyStrip_eq_self (l : List Char)
    (h1 : headOkB l = true) (h2 : lastOkB l = true) : pyStrip l = l := by
  unfold pyStrip
  rw [dropWhile_eq_self_of_headOk l h1]
  rw [dropWhile_eq_self_of_headOk l.reverse (by simpa [lastOkB] using h2)]
  exact List.reverse_reverse l

theorem lastOk_of_cons {a : Char} {rest : List Char}
    (h : lastOkB (a :: rest) = true) (hne : rest ≠ []) : lastOkB rest = true := by
  unfold lastOkB at h ⊢
  rw [List.reverse_cons] at h
  cases hr : rest.reverse with
  | nil =>
    exact absurd (by simpa using congrArg List.reverse hr) hne
  | cons c w =>
    rw [hr] at h
    simpa [headOkB] using h

theorem lastOk_append_right (x y : List Char)
    (hy : lastOkB y = true) (hne : y ≠ []) : lastOkB (x ++ y) = true := by
  unfold lastOkB at hy ⊢
  rw [List.reverse_append]
  cases hr : y.reverse with
  | nil =>
    exact absurd (by simpa using congrArg List.reverse hr) hne
  | cons c w =>
    rw [hr] at hy
    simpa [headOkB] using hy

theorem headOk_replaceGo (k v l : List Char)
    (hv : headOkB v = true) (hvne : v ≠ [])
    (hl : headOkB l = true) : headOkB (replaceGo k v 0 l) = true := by
  cases l with
  | nil => rfl
  | cons a rest =>
    by_cases hcond : (!k.isEmpty && k.isPrefixOf (a :: rest)) = true
    · simp only [replaceGo, if_pos hcond]
      cases v with
      | nil => exact absurd rfl hvne
      | cons d w => simpa [headOkB] using hv
    · simp only [replaceGo, if_neg hcond]
      simpa [headOkB] using hl

theorem replaceGo_ne_nil (k v : List Char) (hv : v ≠ [])
    (l : List Char) (hl : l ≠ []) : replaceGo k v 0 l ≠ [] := by
  cases l with
  | nil => exact absurd rfl hl
  | cons a rest =>
    by_cases hcond : (!k.isEmpty && k.isPrefixOf (a :: rest)) = true
    · simp only [replaceGo, if_pos hcond]
      intro h
      exact hv (List.append_eq_nil.mp h).1
    · simp only [replaceGo, if_neg hcond]
      simp

theorem replaceGo_nil (k v : List Char) (n : Nat) : replaceGo k v n [] = [] := by
  cases n <;> rfl

theorem lastOk_replaceGo (k v : List Char)
    (hv : lastOkB v = true) (hvne : v ≠ []) :
    ∀ (l : List Char) (n : Nat), lastOkB l = true →
      lastOkB (replaceGo k v n l) = true := by
  intro l
  induction l with
  | nil => intro n h; rw [replaceGo_nil]; exact h
  | cons a rest ih =>
    intro n h
    cases n with
    | succ m =>
      show lastOkB (replaceGo k v m rest) = true
      by_cases hre : rest = []
      · subst hre; rw [replaceGo_nil]; rfl
      · exact ih m (lastOk_of_cons h hre)
    | zero =>
      by_cases hcond : (!k.isEmpty && k.isPrefixOf (a :: rest)) = true
      · simp only [replaceGo, if_pos hcond]
        by_cases hw : replaceGo k v (k.length - 1) rest = []
        · rw [hw, List.append_nil]
          exact hv
        · by_cases hre : rest = []
          · subst hre
            rw [replaceGo_nil] at hw
            exact absurd rfl hw
          · exact lastOk_append_right v _ (ih _ (lastOk_of_cons h hre)) hw
      · simp only [replaceGo, if_neg hcond]
        by_cases hre : rest = []
        · subst hre
          exact h
        · have hw : replaceGo k v 0 rest ≠ [] := replaceGo_ne_nil k v hvne rest hre
          have hr := ih 0 (lastOk_of_cons h hre)
          simpa using lastOk_append_right [a] (replaceGo k v 0 rest) hr hw

theorem applyReps_edges :
    ∀ (tbl : List (String × String)) (s : String),
      (∀ p ∈ tbl, (p.2).data ≠ [] ∧ headOkB (p.2).data = true ∧ lastOkB (p.2).data = true) →
      headOkB s.data = true → lastOkB s.data = true →
      headOkB (applyReps tbl s).data = true ∧ lastOkB (applyReps tbl s).data = true := by
  intro tbl
  induction tbl with
  | nil => intro s _ h1 h2; exact ⟨h1, h2⟩
  | cons p tbl ih =>
    intro s hv h1 h2
    have hp := hv p (List.mem_cons_self p tbl)
    have hstep1 : headOkB (replaceAllS p.1 p.2 s).data = true :=
      headOk_replaceGo p.1.data p.2.data s.data hp.2.1 hp.1 h1
    have hstep2 : lastOkB (replaceAllS p.1 p.2 s).data = true :=
      lastOk_replaceGo p.1.data p.2.data hp.2.2 hp.1 s.data 0 h2
    exact ih (replaceAllS p.1 p.2 s)
      (fun q hq => hv q (List.mem_cons_of_mem p hq)) hstep1 hstep2

theorem replaceGo_eq_of_not_contains (k v : List Char) :
    ∀ l, containsSub k l = false → replaceGo k v 0 l = l := by
  intro l
  induction l with
  | nil => intro h; rfl
  | cons a rest ih =>
    intro h
    rw [containsSub, Bool.or_eq_false_iff] at h
    have hcond : ¬ ((!k.isEmpty && k.isPrefixOf (a :: rest)) = true) := by
      rw [Bool.and_eq_true]
      intro hc
      rw [h.1] at hc
      exact absurd hc.2 (by simp)
    simp only [replaceGo, if_neg hcond]
    rw [ih h.2]

theorem applyReps_eq_self :
    ∀ (tbl : List (String × String)) (s : String),
      (∀ p ∈ tbl, containsSubS p.1 s = false) → applyReps tbl s = s := by
  intro tbl
  induction tbl with
  | nil => intro s _; rfl
  | cons p tbl ih =>
    intro s h
    have hstep : replaceAllS p.1 p.2 s = s := by
      obtain ⟨d⟩ := s
      exact congrArg String.mk
        (replaceGo_eq_of_not_contains p.1.data p.2.data d
          (h p (List.mem_cons_self p tbl)))
    calc applyReps (p :: tbl) s = applyReps tbl (replaceAllS p.1 p.2 s) := rfl
      _ = applyReps tbl s := by rw [hstep]
      _ = s := ih s (fun q hq => h q (List.mem_cons_of_mem p hq))

theorem pyStripS_eq_self (s : String)
    (h1 : headOkB s.data = true) (h2 : lastOkB s.data = true) : pyStripS s = s := by
  obtain ⟨d⟩ := s
  exact congrArg String.mk (pyStrip_eq_self d h1 h2)

theorem reps_vals_edges :
    ∀ p ∈ replacements,
      (p.2).data ≠ [] ∧ headOkB (p.2).data = true ∧ lastOkB (p.2).data = true := by
  decide

theorem normalize_location_edges (s : String) :
    headOkB (normalize_location s).data = true ∧
    lastOkB (normalize_location s).data = true := by
  have h1 : headOkB (pyStripS (pyLowerS s)).data = true := pyStrip_headOk _
  have h2 : lastOkB (pyStripS (pyLowerS s)).data = true := pyStrip_lastOk _
  exact applyReps_edges replacements (pyStripS (pyLowerS s)) reps_vals_edges h1 h2

theorem normalize_text_idem (s : String) :
    normalize_text (normalize_text s) = normalize_text s := by
  by_cases hs : s = ""
  · rw [hs]
    rfl
  · have h0 : normalize_text s = pyStripS (pyLowerS s) := by
      unfold normalize_text
      rw [if_neg hs]
    rw [h0]
    by_cases ht : pyStripS (pyLowerS s) = ""
    · rw [ht]
      rfl
    · have hfix : ∀ c ∈ (pyStripS (pyLowerS s)).data, pyLowerChar c = c := by
        intro c hc
        exact mem_pyLower_fixed s.data c (mem_pyStrip _ c hc)
      have hlow : pyLowerS (pyStripS (pyLowerS s)) = pyStripS (pyLowerS s) :=
        pyLowerS_fixed _ hfix
      have hstr : pyStripS (pyStripS (pyLowerS s)) = pyStripS (pyLowerS s) :=
        pyStripS_eq_self _ (pyStrip_headOk _) (pyStrip_lastOk _)
      unfold normalize_text
      rw [if_neg ht, hlow, hstr]

theorem normalize_location_idem_of_noKey (s : String)
    (h : noKeyIn (normalize_location s) = true) :
    normalize_location (normalize_location s) = normalize_location s := by
  have hkeys : ∀ p ∈ replacements, containsSubS p.1 (normalize_location s) = false := by
    intro p hp
    have := List.all_eq_true.mp h p hp
    simpa using this
  have hlow : pyLowerS (normalize_location s) = normalize_location s :=
    pyLowerS_fixed _ (normalize_location_chars s)
  obtain ⟨h1, h2⟩ := normalize_location_edges s
  have hstr : pyStripS (normalize_location s) = normalize_location s :=
    pyStripS_eq_self _ h1 h2
  show applyReps replacements (pyStripS (pyLowerS (normalize_location s)))
    = normalize_location s
  rw [hlow, hstr]
  exact applyReps_eq_self replacements (normalize_location s) hkeys

/-- C5 amended: `normalize_text` of new_scraper.py (lower-case and strip) is
idempotent on every input; `normalize_location` of process_and_upload.py is
idempotent on every input whose normalized form contains no replacement-table
key, but not in general, because a replacement pass can re-create a key it
has already scanned past. -/
theorem C5_normalizer_idempotence :
    (∀ s : String, normalize_text (normalize_text s) = normalize_text s) ∧
    (∀ s : String, noKeyIn (normalize_location s) = true →
      normalize_location (normalize_location s) = normalize_location s) :=
  ⟨normalize_text_idem, normalize_location_idem_of_noKey⟩

/-- C5 counterexample: `normalize_location` is not idempotent.  Replacing
"arenal beach" in "arenal beach beach" yields "arenal beach" again (the scan
resumes after the replaced occurrence and never rescans), and a second
normalization collapses it further to "arenal". -/
theorem C5_counterexample :
    normalize_location "arenal beach beach" = "arenal beach" ∧
    normalize_location (normalize_location "arenal beach beach") = "arenal" ∧
    normalize_location (normalize_location "arenal beach beach")
      ≠ normalize_location "arenal beach beach" :=
  ⟨by decide, by decide, by decide⟩

theorem C5_normalizer_idempotence_witness :
    normalize_text (normalize_text " Xàbia, Cansalades ")
      = normalize_text " Xàbia, Cansalades " ∧
    (noKeyIn (normalize_location "Xàbia, Cansalades") = true ∧
     normalize_location (normalize_location "Xàbia, Cansalades")
       = normalize_location "Xàbia, Cansalades") :=
  ⟨C5_normalizer_idempotence.1 _, by decide,
   C5_normalizer_idempotence.2 _ (by decide)⟩
